/-
Verification of the rooc optimization-language compiler against its
specification.

The Rust sources are shallowly embedded: each Rust type or function used by a
property is translated into a Lean definition of the same name (module paths
become namespaces where needed).  Machine floats (`f64`) are modelled by exact
numbers (`Int` for syntax-tree literals and rendered values, `Rat` for solver
arithmetic); no property below depends on floating-point rounding.  Rust
`HashMap`s are modelled as association lists; `Vec` as `List`; fallible
functions return `Except`.

A few modules of the repository (the `math` operator enums, `utils` spans, the
`primitives/graph` module, the solver plumbing in `solvers/mod.rs`) are not
part of the provided sources; definitions taken from them are modelled from
the specification and are marked as such in their doc comments.
-/
import Mathlib

set_option linter.unusedVariables false

/-- Modelled from the spec: the binary operator enum of the missing
`math/operators.rs` module (`src/consts.rs` carries the legacy copy `Op` with
the same four variants): `+`, `-`, `*`, `/`. -/
inductive BinOp where
  | Add
  | Sub
  | Mul
  | Div
deriving DecidableEq, Repr

/-- Modelled from the spec: the unary operator enum of the missing
`math/operators.rs` module; the language has only unary negation. -/
inductive UnOp where
  | Neg
deriving DecidableEq, Repr

/-- `BinOp::precedence` as in the legacy `src/consts.rs` (`Op::precedence`):
`+`/`-` bind at 1, `*`/`/` at 2. -/
def BinOp.precedence : BinOp → Nat
  | .Add => 1
  | .Sub => 1
  | .Mul => 2
  | .Div => 2

/-- Modelled from the spec: rendering of binary operators. -/
def BinOp.render : BinOp → String
  | .Add => "+"
  | .Sub => "-"
  | .Mul => "*"
  | .Div => "/"

/-- Modelled from the spec: rendering of unary negation. -/
def UnOp.render : UnOp → String
  | .Neg => "-"

/-- The expanded expression tree `Exp` of `src/parser/transformer.rs`
(lines 21-30).  The `f64` payload of `Exp::Number` is modelled as `Int`;
no claim depends on the numeric carrier. -/
inductive Exp where
  | Number (value : Int)
  | Variable (name : String)
  | Mod (inner : Exp)
  | Min (exps : List Exp)
  | Max (exps : List Exp)
  | BinOp (op : BinOp) (lhs : Exp) (rhs : Exp)
  | UnOp (op : UnOp) (inner : Exp)

namespace Exp

/-- Termination measure for `flatten`: multiplicative on `Mul`/`Div`,
additive elsewhere; every expression weighs at least 2, so distributing a
product over a sum strictly shrinks the weight. -/
def weight : Exp → Nat
  | .Number _ => 2
  | .Variable _ => 2
  | .Mod _ => 2
  | .Min _ => 2
  | .Max _ => 2
  | .UnOp _ inner => weight inner + 1
  | .BinOp .Add l r => weight l + weight r + 1
  | .BinOp .Sub l r => weight l + weight r + 1
  | .BinOp .Mul l r => weight l * weight r
  | .BinOp .Div l r => weight l * weight r

theorem two_le_weight : ∀ e : Exp, 2 ≤ e.weight
  | .Number _ => by simp [weight]
  | .Variable _ => by simp [weight]
  | .Mod _ => by simp [weight]
  | .Min _ => by simp [weight]
  | .Max _ => by simp [weight]
  | .UnOp _ inner => by
      have h := two_le_weight inner
      simp [weight]; omega
  | .BinOp op l r => by
      have hl := two_le_weight l
      have hr := two_le_weight r
      cases op <;> simp [weight] <;> nlinarith

/-- `Exp::flatten` of `src/parser/transformer.rs` (lines 51-95), with the
match arms in the source order: distribute `*` over `+`/`-` on either side
(re-flattening the whole result), hoist unary negation out of `*`
(re-flattening the product under the negation), distribute `/` over a `+`/`-`
numerator (re-flattening the two quotients separately), otherwise recurse
into the two operands; non-`BinOp` expressions are returned unchanged. -/
def flatten : Exp → Exp
  | .BinOp .Mul (.BinOp .Add l r) c =>
      flatten (.BinOp .Add (.BinOp .Mul l c) (.BinOp .Mul r c))
  | .BinOp .Mul (.BinOp .Sub l r) c =>
      flatten (.BinOp .Sub (.BinOp .Mul l c) (.BinOp .Mul r c))
  | .BinOp .Mul c (.BinOp .Add l r) =>
      flatten (.BinOp .Add (.BinOp .Mul c l) (.BinOp .Mul c r))
  | .BinOp .Mul c (.BinOp .Sub l r) =>
      flatten (.BinOp .Sub (.BinOp .Mul c l) (.BinOp .Mul c r))
  | .BinOp .Mul (.UnOp .Neg l) c =>
      .UnOp .Neg (flatten (.BinOp .Mul l c))
  | .BinOp .Mul c (.UnOp .Neg r) =>
      .UnOp .Neg (flatten (.BinOp .Mul c r))
  | .BinOp .Div (.BinOp .Add l r) c =>
      .BinOp .Add (flatten (.BinOp .Div l c)) (flatten (.BinOp .Div r c))
  | .BinOp .Div (.BinOp .Sub l r) c =>
      .BinOp .Sub (flatten (.BinOp .Div l c)) (flatten (.BinOp .Div r c))
  | .BinOp op l r => .BinOp op (flatten l) (flatten r)
  | .Number v => .Number v
  | .Variable n => .Variable n
  | .Mod e => .Mod e
  | .Min es => .Min es
  | .Max es => .Max es
  | .UnOp op e => .UnOp op e
termination_by e => e.weight
decreasing_by
  all_goals
    first
    | (simp [weight]; nlinarith [two_le_weight l, two_le_weight r, two_le_weight c])
    | (simp [weight]; nlinarith [two_le_weight l, two_le_weight c])
    | (simp [weight]; nlinarith [two_le_weight c, two_le_weight r])
    | (cases op <;> simp [weight] <;>
        nlinarith [two_le_weight l, two_le_weight r])

/-- `Exp::is_leaf` of `src/parser/transformer.rs` (lines 97-99): despite its
name it matches exactly the `BinOp` and `UnOp` nodes. -/
def is_leaf : Exp → Bool
  | .BinOp _ _ _ => true
  | .UnOp _ _ => true
  | _ => false

/-- No `Mul`/`Div` node occurs in the additive skeleton of the expression
(the contents of `UnOp`, `Mod`, `Min` and `Max` nodes are not inspected,
because `flatten` never descends into them). -/
def mulDivFree : Exp → Bool
  | .BinOp .Mul _ _ => false
  | .BinOp .Div _ _ => false
  | .BinOp _ l r => mulDivFree l && mulDivFree r
  | _ => true

/-- Every `Mul`/`Div` node of the additive skeleton has `mulDivFree`
operands, i.e. products and quotients are never nested inside products or
quotients. -/
def nestFree : Exp → Bool
  | .BinOp .Mul l r => mulDivFree l && mulDivFree r
  | .BinOp .Div l r => mulDivFree l && mulDivFree r
  | .BinOp _ l r => nestFree l && nestFree r
  | _ => true

end Exp

/-- Modelled from the spec: the source span type of the missing `utils.rs`
module.  Per the spec every span carries a start offset (used as the token-map
key) and `(start_line, start_column, end_line, end_column)`; the `Spanned<T>`
wrapper pairs a value with such a span and is inlined into the constructors
that carry it. -/
structure InputSpan where
  start : Nat
  start_line : Nat
  start_column : Nat
  end_line : Nat
  end_column : Nat
deriving DecidableEq

/-- Modelled from the spec: `GraphEdge` of the missing `primitives/graph.rs`
module (the legacy copy lives in `src/consts.rs` lines 11-16): `from`, `to`
and an optional weight.  `from` and `to` are Lean keywords, hence the fields
are named `from_` and `to_`; the `f64` weight is carried as `Int`. -/
structure GraphEdge where
  from_ : String
  to_ : String
  weight : Option Int
deriving DecidableEq

/-- Modelled from the spec: `GraphNode` of the missing `primitives/graph.rs`
module (legacy copy in `src/consts.rs` lines 29-51): a name and a map from
target-node-name to edge; the Rust `HashMap<String, GraphEdge>` is modelled
as the list of its values (`edges.values()`), which is the only view the
embedded functions use. -/
structure GraphNode where
  name : String
  edges : List GraphEdge
deriving DecidableEq

/-- `GraphNode::get_name`. -/
def GraphNode.get_name (n : GraphNode) : String :=
  n.name

/-- Modelled from the spec: `Graph` of the missing `primitives/graph.rs`
module (legacy copy in `src/consts.rs` lines 53-56): an ordered list of
nodes. -/
structure Graph where
  vertices : List GraphNode
deriving DecidableEq

/-- `Graph::edges` of `src/consts.rs` (lines 61-72): every node's edge values,
concatenated. -/
def Graph.edges (g : Graph) : List GraphEdge :=
  (g.vertices.map GraphNode.edges).flatten

namespace Consts

/-- Modelled from the spec: the error enum of the legacy `crate::transformer`
module used by `src/consts.rs`; only the `NotFound` variant (listed in the
spec's error taxonomy) is exercised by the embedded `Graph` functions. -/
inductive TransformError where
  | NotFound (s : String)
deriving DecidableEq

end Consts

/-- `Graph::neighbour_of` of `src/consts.rs` (lines 76-90): find the first
node with the given name and return its edge values; a missing node is a
`NotFound` error. -/
def Graph.neighbour_of (g : Graph) (node_name : String) :
    Except Consts.TransformError (List GraphEdge) :=
  match g.vertices.find? (fun n => n.name = node_name) with
  | some node => .ok node.edges
  | none => .error (.NotFound ("node " ++ node_name ++ " not found in graph"))

/-- Alias for the builtin string type, needed inside namespaces whose parent
type declares a constructor named `String`. -/
abbrev Str := String

/-- `PrimitiveKind` of `src/primitives/primitive.rs` (lines 48-60). -/
inductive PrimitiveKind where
  | Number
  | String
  | Iterable (inner : PrimitiveKind)
  | Graph
  | GraphEdge
  | GraphNode
  | Tuple (ts : List PrimitiveKind)
  | Boolean
  | Undefined
  | Any

mutual

/-- `Primitive` of `src/primitives/primitive.rs` (lines 20-33); the `f64`
payload of `Number` is modelled as `Int`, and the `Tuple` struct of the
missing `primitives/tuple.rs` module is modelled from the spec as its list
of element values. -/
inductive Primitive where
  | Number (n : Int)
  | String (s : String)
  | Iterable (i : IterableKind)
  | Graph (g : Graph)
  | GraphEdge (e : GraphEdge)
  | GraphNode (n : GraphNode)
  | Tuple (t : List Primitive)
  | Boolean (b : Bool)
  | Undefined

/-- `IterableKind` of `src/primitives/iterable.rs` (lines 21-30). -/
inductive IterableKind where
  | Numbers (v : List Int)
  | Strings (v : List String)
  | Edges (v : List GraphEdge)
  | Nodes (v : List GraphNode)
  | Graphs (v : List Graph)
  | Tuple (v : List (List Primitive))
  | Booleans (v : List Bool)
  | Iterable (v : List IterableKind)

end

mutual

/-- `PrimitiveKind::to_string` of `src/primitives/primitive.rs`
(lines 117-136); the `Vec::map`/`join` over tuple members is written as the
explicit list recursion `PrimitiveKind.to_string_list`. -/
def PrimitiveKind.to_string : PrimitiveKind → Str
  | .Number => "Number"
  | .String => "String"
  | .Iterable i => PrimitiveKind.to_string i ++ "[]"
  | .Graph => "Graph"
  | .GraphEdge => "GraphEdge"
  | .GraphNode => "GraphNode"
  | .Tuple ts => "(" ++ ", ".intercalate (PrimitiveKind.to_string_list ts) ++ ")"
  | .Boolean => "Boolean"
  | .Undefined => "Undefined"
  | .Any => "Any"

def PrimitiveKind.to_string_list : List PrimitiveKind → List Str
  | [] => []
  | k :: ks => PrimitiveKind.to_string k :: PrimitiveKind.to_string_list ks

end

mutual

/-- `PrimitiveKind::from_primitive` / `Primitive::get_type` of
`src/primitives/primitive.rs` (lines 76-88 and 140-142).  The kind of a
tuple (`Tuple::get_type`, missing `primitives/tuple.rs`) is modelled from the
spec as `Tuple` of the member kinds. -/
def Primitive.get_type : Primitive → PrimitiveKind
  | .Number _ => .Number
  | .String _ => .String
  | .Iterable p => IterableKind.get_type p
  | .Graph _ => .Graph
  | .GraphEdge _ => .GraphEdge
  | .GraphNode _ => .GraphNode
  | .Tuple t => .Tuple (Primitive.get_type_list t)
  | .Boolean _ => .Boolean
  | .Undefined => .Undefined

def Primitive.get_type_list : List Primitive → List PrimitiveKind
  | [] => []
  | p :: ps => Primitive.get_type p :: Primitive.get_type_list ps

/-- `IterableKind::get_type` of `src/primitives/iterable.rs` (lines 56-75):
the element kind, with empty `Tuple`/`Iterable` collections defaulting to
`Undefined`. -/
def IterableKind.get_type : IterableKind → PrimitiveKind
  | .Numbers _ => .Number
  | .Strings _ => .String
  | .Edges _ => .GraphEdge
  | .Nodes _ => .GraphNode
  | .Tuple t =>
      match t with
      | [] => .Undefined
      | t0 :: _ => .Tuple (Primitive.get_type_list t0)
  | .Booleans _ => .Boolean
  | .Graphs _ => .Graph
  | .Iterable i =>
      .Iterable
        (match i with
         | [] => .Undefined
         | i0 :: _ => IterableKind.get_type i0)

end

/-- `Primitive::get_type_string` of `src/primitives/primitive.rs`
(lines 143-145). -/
def Primitive.get_type_string (p : Primitive) : Str :=
  p.get_type.to_string

/-- `IterableKind::len` of `src/primitives/iterable.rs` (lines 76-87). -/
def IterableKind.len : IterableKind → Nat
  | .Numbers v => v.length
  | .Strings v => v.length
  | .Edges v => v.length
  | .Nodes v => v.length
  | .Tuple v => v.length
  | .Iterable v => v.length
  | .Booleans v => v.length
  | .Graphs v => v.length

/-- `TransformError` of `src/parser/transformer.rs` (lines 236-246).  The
Rust `SpannedError(Spanned<Box<TransformError>>, Option<String>)` carries a
spanned boxed inner error and an optional context string; the `Spanned`
wrapper is inlined as the two fields `inner` and `span`. -/
inductive TransformError where
  | MissingVariable (s : String)
  | AlreadyExistingVariable (s : String)
  | OutOfBounds (s : String)
  | WrongArgument (s : String)
  | SpannedError (inner : TransformError) (span : InputSpan) (context : Option String)
  | Unspreadable (kind : PrimitiveKind)
  | OperatorError (s : String)
  | Other (s : String)

/-- `Display for TransformError` of `src/parser/transformer.rs`
(lines 247-263): `SpannedError` renders its inner error, so the rendering is
always the innermost non-spanned message. -/
def TransformError.to_string : TransformError → String
  | .MissingVariable name => "[Missing variable] " ++ name
  | .AlreadyExistingVariable name => "Variable " ++ name ++ " was already declared"
  | .OutOfBounds name => "[Out of bounds] " ++ name
  | .WrongArgument name => "[Wrong argument] " ++ name
  | .OperatorError name => "[Operator error] " ++ name
  | .Other name => name
  | .Unspreadable kind => kind.to_string ++ " is not spreadable"
  | .SpannedError inner _ _ => inner.to_string

/-- The loop of `TransformError::get_trace` (`src/parser/transformer.rs`
lines 290-303): walk the chain of `SpannedError` wrappers, appending each
`(span, context)` pair unless its span equals the span of the last appended
pair. -/
def TransformError.get_trace_loop :
    TransformError → List (InputSpan × Option String) →
      List (InputSpan × Option String)
  | .SpannedError inner span ctx, trace =>
      match trace.getLast? with
      | some last =>
          if last.1 = span then TransformError.get_trace_loop inner trace
          else TransformError.get_trace_loop inner (trace ++ [(span, ctx)])
      | none => TransformError.get_trace_loop inner (trace ++ [(span, ctx)])
  | _, trace => trace

/-- `TransformError::get_trace` of `src/parser/transformer.rs`
(lines 286-309): seed the trace with the outermost `(span, context)` pair,
run the dedup loop inward, and reverse the result. -/
def TransformError.get_trace :
    TransformError → List (InputSpan × Option String)
  | .SpannedError inner span ctx =>
      (TransformError.get_trace_loop inner [(span, ctx)]).reverse
  | _ => []

/-- One `"\tat line:column (context?)"` line of
`TransformError::get_traced_error`. -/
def TransformError.trace_line (p : InputSpan × Option String) : String :=
  let origin :=
    match p.2 with
    | some o => " (" ++ o ++ ")"
    | none => ""
  "\tat " ++ toString p.1.start_line ++ ":" ++ toString p.1.start_column ++ origin

/-- `TransformError::get_traced_error` of `src/parser/transformer.rs`
(lines 266-282): the error message followed by one trace line per
`(span, context)` pair of `get_trace`, joined by newlines. -/
def TransformError.get_traced_error (e : TransformError) : String :=
  e.to_string ++ "\n" ++ "\n".intercalate (e.get_trace.map TransformError.trace_line)

/-- Specification-side view of the span chain: the `(span, context)` pairs of
the nested `SpannedError` wrappers, outermost first. -/
def TransformError.span_chain :
    TransformError → List (InputSpan × Option String)
  | .SpannedError inner span ctx => (span, ctx) :: inner.span_chain
  | _ => []

/-- Tail of `dedupAdjacentBySpan`: drop pairs whose span equals the last kept
span. -/
def dedupAdjacentGo (last : InputSpan) :
    List (InputSpan × Option String) → List (InputSpan × Option String)
  | [] => []
  | p :: rest =>
      if p.1 = last then dedupAdjacentGo last rest
      else p :: dedupAdjacentGo p.1 rest

/-- Specification-side adjacent de-duplication by span, keeping the first
pair of every run of equal spans. -/
def dedupAdjacentBySpan :
    List (InputSpan × Option String) → List (InputSpan × Option String)
  | [] => []
  | p :: rest => p :: dedupAdjacentGo p.1 rest

/-- `check_bounds!` of `src/macros.rs` (lines 64-77): the error text of an
out-of-range read.  The `{}` rendering of the receiving iterable is
abstracted by its `len`-agnostic constructor name plus nothing the claims
depend on; the claims about `read` quantify over the message, so only the
constructor matters.  We keep the textual prefix of the Rust format string. -/
def IterableKind.out_of_bounds_msg (i : Nat) : String :=
  "cannot access index " ++ toString i ++ " of the iterable"

/-- The terminal single-index step of `IterableKind::read`
(`src/primitives/iterable.rs` lines 130-155): bounds-check the index against
the current level and wrap the element as a `Primitive`. -/
def IterableKind.read_last (v : IterableKind) (i : Nat) :
    Except TransformError Primitive :=
  match v with
  | .Booleans xs =>
      match xs[i]? with
      | some x => .ok (.Boolean x)
      | none => .error (.OutOfBounds (IterableKind.out_of_bounds_msg i))
  | .Numbers xs =>
      match xs[i]? with
      | some x => .ok (.Number x)
      | none => .error (.OutOfBounds (IterableKind.out_of_bounds_msg i))
  | .Strings xs =>
      match xs[i]? with
      | some x => .ok (.String x)
      | none => .error (.OutOfBounds (IterableKind.out_of_bounds_msg i))
  | .Edges xs =>
      match xs[i]? with
      | some x => .ok (.GraphEdge x)
      | none => .error (.OutOfBounds (IterableKind.out_of_bounds_msg i))
  | .Nodes xs =>
      match xs[i]? with
      | some x => .ok (.GraphNode x)
      | none => .error (.OutOfBounds (IterableKind.out_of_bounds_msg i))
  | .Tuple xs =>
      match xs[i]? with
      | some x => .ok (.Tuple x)
      | none => .error (.OutOfBounds (IterableKind.out_of_bounds_msg i))
  | .Iterable xs =>
      match xs[i]? with
      | some x => .ok (.Iterable x)
      | none => .error (.OutOfBounds (IterableKind.out_of_bounds_msg i))
  | .Graphs xs =>
      match xs[i]? with
      | some x => .ok (.Graph x)
      | none => .error (.OutOfBounds (IterableKind.out_of_bounds_msg i))

/-- The `while` loop of `IterableKind::read` (`src/primitives/iterable.rs`
lines 125-176): pop the first index; if it is the last one, do the terminal
bounds-checked read; otherwise descend into a nested `Iterable`, failing with
`OutOfBounds` when the index is out of range or the current level is not an
`Iterable`. -/
def IterableKind.read_loop (current : IterableKind) :
    List Nat → Except TransformError Primitive
  | [] => .error (.OutOfBounds (IterableKind.out_of_bounds_msg 0))
  | [i] => current.read_last i
  | i :: rest =>
      match current with
      | .Iterable v =>
          match v[i]? with
          | some next => IterableKind.read_loop next rest
          | none => .error (.OutOfBounds (IterableKind.out_of_bounds_msg i))
      | _ => .error (.OutOfBounds (IterableKind.out_of_bounds_msg i))

/-- `IterableKind::read` of `src/primitives/iterable.rs` (lines 120-181): an
empty index vector reads `Undefined`; otherwise the loop above runs.  (The
trailing `Err` after the Rust loop is unreachable: the loop only exits by
returning.) -/
def IterableKind.read (v : IterableKind) (indexes : List Nat) :
    Except TransformError Primitive :=
  if indexes.isEmpty then .ok .Undefined
  else v.read_loop indexes

/-- Specification-side validity of a non-empty index path: each index is in
range at its level and all but the last level are nested `Iterable`s. -/
def IterableKind.validAccess : IterableKind → List Nat → Bool
  | v, [i] => i < v.len
  | v, i :: rest =>
      match v with
      | .Iterable vs =>
          match vs[i]? with
          | some next => next.validAccess rest
          | none => false
      | _ => false
  | _, [] => true

/-- `Frame` of `src/parser/transformer.rs` (lines 327-375).  The newer
revision of the module referenced by `src/type_checker/type_checker_context.rs`
makes it generic over the stored value (`Frame<PrimitiveKind>`), with the
`Primitive` instance used by the transformer; the `HashMap` is modelled as an
association list whose most recent binding wins (`variables` is a reserved
token in Lean, hence the field is named `vars`). -/
structure Frame (α : Type) where
  vars : List (String × α)

/-- `Frame::new`. -/
def Frame.new {α : Type} : Frame α :=
  ⟨[]⟩

/-- `Frame::get_value`. -/
def Frame.get_value {α : Type} (f : Frame α) (name : String) : Option α :=
  (f.vars.find? (fun p => p.1 = name)).map Prod.snd

/-- `Frame::has_variable`. -/
def Frame.has_variable {α : Type} (f : Frame α) (name : String) : Bool :=
  (f.vars.find? (fun p => p.1 = name)).isSome

/-- `Frame::declare_variable` (lines 346-352): error if the name is already
bound in this frame, otherwise insert. -/
def Frame.declare_variable {α : Type} (f : Frame α) (name : String) (value : α) :
    Except TransformError (Frame α) :=
  if f.has_variable name then
    .error (.AlreadyExistingVariable name)
  else
    .ok ⟨(name, value) :: f.vars⟩

/-- `TransformerContext` of `src/parser/transformer.rs` (lines 376-379): a
stack of frames, pushed at the end of the list as in the Rust `Vec`. -/
structure TransformerContext where
  frames : List (Frame Primitive)

/-- `TransformerContext::get_value` (lines 428-436): search the frames from
the innermost (last pushed) outward. -/
def TransformerContext.get_value (ctx : TransformerContext) (name : String) :
    Option Primitive :=
  ctx.frames.reverse.findSome? (fun f => f.get_value name)

/-- `TransformerContext::declare_variable` (lines 452-466): the sink name `_`
is silently discarded; under `strict` any visible binding is an error;
otherwise the innermost frame's `declare_variable` runs (which itself rejects
a name already bound in that frame).  The Rust `last_mut().unwrap()` panics on
an empty frame stack, which cannot happen because contexts are created with a
root frame; the model returns an `Other` error in that unreachable case. -/
def TransformerContext.declare_variable (ctx : TransformerContext)
    (name : String) (value : Primitive) (strict : Bool) :
    Except TransformError TransformerContext :=
  if name = "_" then .ok ctx
  else if strict && (ctx.get_value name).isSome then
    .error (.AlreadyExistingVariable name)
  else
    match ctx.frames.getLast? with
    | none => .error (.Other "no frame")
    | some top =>
        match top.declare_variable name value with
        | .error e => .error e
        | .ok top2 => .ok ⟨ctx.frames.dropLast ++ [top2]⟩

/-- The per-index rendering closure of
`TransformerContext::flatten_variable_name` (`src/parser/transformer.rs`
lines 392-406): numbers render in decimal, strings render as themselves,
graph nodes render as their name; other kinds are a `WrongArgument`, unbound
names a `MissingVariable`. -/
def TransformerContext.render_index (ctx : TransformerContext) (name : String) :
    Except TransformError String :=
  match ctx.get_value name with
  | some (Primitive.Number v) => .ok (toString v)
  | some (Primitive.String s) => .ok s
  | some (Primitive.GraphNode n) => .ok n.get_name
  | some value =>
      .error (.WrongArgument
        ("Expected a number or string for variable flattening, got "
          ++ value.get_type_string ++ ", check the definition of " ++ name))
  | none => .error (.MissingVariable name)

/-- `TransformerContext::flatten_variable_name` (lines 388-409): render every
index name (first failure wins, as with `collect::<Result<_,_>>`) and join
with `_`. -/
def TransformerContext.flatten_variable_name (ctx : TransformerContext)
    (compound_name : List String) : Except TransformError String := do
  let flattened ← compound_name.mapM ctx.render_index
  return "_".intercalate flattened

/-- `TransformerContext::flatten_compound_variable` (lines 490-498):
`stem ++ "_" ++ joined index renderings`. -/
def TransformerContext.flatten_compound_variable (ctx : TransformerContext)
    (name : String) (indexes : List String) : Except TransformError String := do
  let names ← ctx.flatten_variable_name indexes
  return name ++ "_" ++ names

/-- Specification-side per-value rendering used to state the compound-name
claim: exactly the three renderable kinds produce a string. -/
def renderIndexValue : Primitive → Option String
  | .Number v => some (toString v)
  | .String s => some s
  | .GraphNode n => some n.name
  | _ => none

/-- Specification-side well-formedness of a graph (the construction invariant
of the parser): every edge stored in a node's adjacency map carries that
node's name as its `from` field. -/
def Graph.edgesWellFormed (g : Graph) : Prop :=
  ∀ n ∈ g.vertices, ∀ e ∈ n.edges, e.from_ = n.name

/-- Specification-side innermost message of an error chain: strip all
`SpannedError` wrappers, then render. -/
def TransformError.innermost_message : TransformError → String
  | .SpannedError inner _ _ => inner.innermost_message
  | e => e.to_string

/-- `TypedToken` of `src/type_checker/type_checker_context.rs`
(lines 20-24). -/
structure TypedToken where
  span : InputSpan
  value : PrimitiveKind
  identifier : Option String

/-- Modelled from the spec: a stand-in for a `PreExp` index expression of an
addressable access (the `pre_parsed_problem.rs` module is not part of the
sources).  It carries the only two views `get_addressable_value` uses: its
statically inferred kind (`get_type(context)`) and its rendering
(`to_string()`). -/
structure AccessExp where
  ty : PrimitiveKind
  text : String

/-- `AddressableAccess` of the missing `pre_parsed_problem.rs`, modelled from
the spec: a base name and the list of index expressions. -/
structure AddressableAccess where
  name : String
  accesses : List AccessExp

/-- `TypeCheckerContext` of `src/type_checker/type_checker_context.rs`
(lines 45-49): a stack of kind frames plus the token map keyed by span
start. -/
structure TypeCheckerContext where
  frames : List (Frame PrimitiveKind)
  token_map : List (Nat × TypedToken)

/-- `TypeCheckerContext::get_value` (lines 95-103): innermost frame first. -/
def TypeCheckerContext.get_value (ctx : TypeCheckerContext) (name : String) :
    Option PrimitiveKind :=
  ctx.frames.reverse.findSome? (fun f => f.get_value name)

/-- The `while let PrimitiveKind::Iterable` loop of `get_addressable_value`
(lines 158-163): the number of `Iterable` wrappers and the kind under them. -/
def PrimitiveKind.strip_iterable_depth : PrimitiveKind → Nat × PrimitiveKind
  | .Iterable inner =>
      let p := inner.strip_iterable_depth
      (p.1 + 1, p.2)
  | k => (0, k)

/-- `TypeCheckerContext::get_addressable_value` of
`src/type_checker/type_checker_context.rs` (lines 141-176): the base must
resolve (`MissingVariable`), every access kind must be `Number` (first
offender reported as `WrongArgument`); if the `Iterable` nesting depth of the
base kind exceeds the number of accesses the result is `OutOfBounds`,
otherwise the kind under all `Iterable` wrappers. -/
def TypeCheckerContext.get_addressable_value (ctx : TypeCheckerContext)
    (addressable_access : AddressableAccess) :
    Except TransformError PrimitiveKind :=
  match ctx.get_value addressable_access.name with
  | none => .error (.MissingVariable addressable_access.name)
  | some v =>
      let len := addressable_access.accesses.length
      match addressable_access.accesses.find?
          (fun access =>
            match access.ty with
            | .Number => false
            | _ => true) with
      | some access =>
          .error (.WrongArgument
            ("Expected value of type \"Number\" to index array, got \""
              ++ access.ty.to_string ++ "\", check the definition of \""
              ++ access.text ++ "\""))
      | none =>
          let p := v.strip_iterable_depth
          if len < p.1 then
            .error (.OutOfBounds
              ("Indexing " ++ addressable_access.name ++ " with "
                ++ toString len ++ " indexes, but it only has "
                ++ toString p.1 ++ " dimensions"))
          else .ok p.2

mutual

/-- `Display for Exp` of `src/parser/transformer.rs` (lines 117-156); the
`Vec::map`/`join` of the `Min`/`Max` cases is written as the explicit list
recursion `Exp.to_string_list`. -/
def Exp.to_string : Exp → String
  | .Number value => toString value
  | .Variable name => name
  | .Mod exp => "|" ++ Exp.to_string exp ++ "|"
  | .Min exps => "min\x7b " ++ ", ".intercalate (Exp.to_string_list exps) ++ " \x7d"
  | .Max exps => "max\x7b " ++ ", ".intercalate (Exp.to_string_list exps) ++ " \x7d"
  | .BinOp operator lhs rhs =>
      Exp.to_string_with_precedence lhs operator.precedence
        ++ " " ++ operator.render ++ " "
        ++ Exp.to_string_with_precedence rhs operator.precedence
  | .UnOp op exp =>
      if Exp.is_leaf exp then op.render ++ Exp.to_string exp
      else op.render ++ "(" ++ Exp.to_string exp ++ ")"

/-- `Exp::to_string_with_precedence` of `src/parser/transformer.rs`
(lines 101-115): parenthesise a `BinOp` whose operator binds looser than the
surrounding one; everything else renders via `Display`. -/
def Exp.to_string_with_precedence : Exp → Nat → String
  | .BinOp op lhs rhs, last_precedence =>
      let l := Exp.to_string_with_precedence lhs op.precedence
      let r := Exp.to_string_with_precedence rhs op.precedence
      if op.precedence < last_precedence then
        "(" ++ l ++ " " ++ op.render ++ " " ++ r ++ ")"
      else l ++ " " ++ op.render ++ " " ++ r
  | e, _ => Exp.to_string e

def Exp.to_string_list : List Exp → List String
  | [] => []
  | e :: es => Exp.to_string e :: Exp.to_string_list es

end

/-- Modelled from the spec: the per-variable domain tags of the compiled
model ABI (`Real`, `NonNegativeReal`, `Integer`, `Boolean`); the
`VariableType` enum lives in the missing `math` module. -/
inductive VariableType where
  | Real
  | NonNegativeReal
  | Integer
  | Boolean
deriving DecidableEq

/-- Modelled from the spec: the optimization direction (`Min | Max |
Satisfy`) of the missing `math/math_enums.rs` (the legacy copy in
`src/consts.rs` predates `Satisfy`). -/
inductive OptimizationType where
  | Min
  | Max
  | Satisfy
deriving DecidableEq

/-- Modelled from the spec: the comparison enum of the missing
`math/math_enums.rs`; the spec fixes the linear-model comparisons to
`{≤, ≥, =}`. -/
inductive Comparison where
  | LessOrEqual
  | GreaterOrEqual
  | Equal
deriving DecidableEq

/-- `LinearConstraint` of `src/transformers/linear_model.rs` (lines 13-17);
`f64` is modelled as `Rat`. -/
structure LinearConstraint where
  coefficients : List Rat
  rhs : Rat
  constraint_type : Comparison

/-- `LinearModel` of `src/transformers/linear_model.rs` (lines 59-65), plus
the per-variable `domain` map that the newer revision used by
`src/solvers/clarabel_real.rs` exposes through `get_domain` (modelled from
the spec's compiled-model ABI).  `variables` is a reserved token in Lean,
hence the field is named `vars`. -/
structure LinearModel where
  vars : List String
  objective_offset : Rat
  optimization_type : OptimizationType
  objective : List Rat
  constraints : List LinearConstraint
  domain : List (String × VariableType)

/-- Modelled from the spec: `find_invalid_variables` of the missing
`solvers/mod.rs`: the domain entries whose variable type fails the
predicate. -/
def find_invalid_variables (domain : List (String × VariableType))
    (pred : VariableType → Bool) : List (String × VariableType) :=
  domain.filter (fun p => !pred p.2)

/-- Modelled from the spec: `Assignment` of the missing `solvers/mod.rs`. -/
structure Assignment where
  name : String
  value : Rat

/-- Modelled from the spec: `LpSolution` of the missing `solvers/mod.rs`:
the per-variable assignments and the objective value. -/
structure LpSolution where
  assignments : List Assignment
  value : Rat

/-- The error type of the external `good_lp` backend, as matched by
`src/solvers/clarabel_real.rs` (lines 87-92): `Unbounded`, `Infeasible`, and
two string-carrying variants. -/
inductive ResolutionError where
  | Unbounded
  | Infeasible
  | OtherRE (s : String)
  | StrRE (s : String)

/-- Modelled from the spec: `SolverError` of the missing `solvers/mod.rs`,
with the variants used by `src/solvers/clarabel_real.rs` (including the
source's `Infisible` spelling). -/
inductive SolverError where
  | InvalidDomain (expected : List VariableType) (got : List (String × VariableType))
  | UnimplementedOptimizationType (expected : List OptimizationType) (got : OptimizationType)
  | UnavailableComparison (got : Comparison) (expected : List Comparison)
  | Unbounded
  | Infisible
  | Other (s : String)

/-- `solve_real_lp_problem_clarabel` of `src/solvers/clarabel_real.rs`
(lines 9-94).  The external clarabel solve (`model.solve()`) is abstracted as
the `external_solution` argument giving either a backend error or the solved
value of every variable; everything the function itself computes — the domain
check, the `Satisfy` rejection, the assignment extraction and the objective
value — is embedded.  With the spec's three comparisons the
`UnavailableComparison` arm of the constraint loop is unreachable and the
loop only feeds the external model, so it is not re-modelled.  The Rust
`coeffs[i]` indexing (which panics out of range) is modelled with default 0;
the two coincide whenever the objective vector is aligned to the variable
vector, which the spec's linear-model invariant guarantees. -/
def solve_real_lp_problem_clarabel (lp : LinearModel)
    (external_solution : Except ResolutionError (String → Rat)) :
    Except SolverError LpSolution :=
  let invalid_variables :=
    find_invalid_variables lp.domain
      (fun var =>
        match var with
        | .Real => true
        | .NonNegativeReal => true
        | _ => false)
  if !invalid_variables.isEmpty then
    .error (.InvalidDomain [.Real, .NonNegativeReal] invalid_variables)
  else
    match lp.optimization_type with
    | .Satisfy =>
        .error (.UnimplementedOptimizationType [.Min, .Max] .Satisfy)
    | _ =>
        match external_solution with
        | .ok sol =>
            let vars := lp.vars.map (fun name => Assignment.mk name (sol name))
            let coeffs := lp.objective
            let value := vars.enum.foldl
              (fun acc p => acc + p.2.value * coeffs.getD p.1 0)
              lp.objective_offset
            .ok (LpSolution.mk vars (value + lp.objective_offset))
        | .error e =>
            match e with
            | .Unbounded => .error .Unbounded
            | .Infeasible => .error .Infisible
            | .OtherRE s => .error (.Other s)
            | .StrRE s => .error (.Other s)

theorem flatten_add_eq (l r : Exp) :
    Exp.flatten (.BinOp .Add l r) = .BinOp .Add (Exp.flatten l) (Exp.flatten r) := by
  simp [Exp.flatten]

theorem flatten_sub_eq (l r : Exp) :
    Exp.flatten (.BinOp .Sub l r) = .BinOp .Sub (Exp.flatten l) (Exp.flatten r) := by
  simp [Exp.flatten]

theorem flatten_unop_eq (op : UnOp) (e : Exp) :
    Exp.flatten (.UnOp op e) = .UnOp op e := by
  simp [Exp.flatten]

theorem flatten_mul_catchall (l r : Exp)
    (hlA : ∀ a b, l ≠ .BinOp .Add a b) (hlS : ∀ a b, l ≠ .BinOp .Sub a b)
    (hrA : ∀ a b, r ≠ .BinOp .Add a b) (hrS : ∀ a b, r ≠ .BinOp .Sub a b)
    (hlN : ∀ a, l ≠ .UnOp .Neg a) (hrN : ∀ a, r ≠ .UnOp .Neg a) :
    Exp.flatten (.BinOp .Mul l r) = .BinOp .Mul (Exp.flatten l) (Exp.flatten r) := by
  have hr : ∀ l : Exp, (∀ a b, l ≠ Exp.BinOp .Add a b) → (∀ a b, l ≠ Exp.BinOp .Sub a b) →
      (∀ a, l ≠ Exp.UnOp .Neg a) →
      Exp.flatten (.BinOp .Mul l r) = .BinOp .Mul (Exp.flatten l) (Exp.flatten r) := by
    intro l hlA hlS hlN
    cases r with
    | BinOp op2 a2 b2 =>
        cases op2 with
        | Add => exact absurd rfl (hrA a2 b2)
        | Sub => exact absurd rfl (hrS a2 b2)
        | Mul =>
            cases l with
            | BinOp op a b =>
                cases op with
                | Add => exact absurd rfl (hlA a b)
                | Sub => exact absurd rfl (hlS a b)
                | Mul => simp [Exp.flatten]
                | Div => simp [Exp.flatten]
            | UnOp u a => cases u; exact absurd rfl (hlN a)
            | Number v => simp [Exp.flatten]
            | Variable n => simp [Exp.flatten]
            | Mod e => simp [Exp.flatten]
            | Min es => simp [Exp.flatten]
            | Max es => simp [Exp.flatten]
        | Div =>
            cases l with
            | BinOp op a b =>
                cases op with
                | Add => exact absurd rfl (hlA a b)
                | Sub => exact absurd rfl (hlS a b)
                | Mul => simp [Exp.flatten]
                | Div => simp [Exp.flatten]
            | UnOp u a => cases u; exact absurd rfl (hlN a)
            | Number v => simp [Exp.flatten]
            | Variable n => simp [Exp.flatten]
            | Mod e => simp [Exp.flatten]
            | Min es => simp [Exp.flatten]
            | Max es => simp [Exp.flatten]
    | UnOp u a2 => cases u; exact absurd rfl (hrN a2)
    | Number v2 =>
        cases l with
        | BinOp op a b =>
            cases op with
            | Add => exact absurd rfl (hlA a b)
            | Sub => exact absurd rfl (hlS a b)
            | Mul => simp [Exp.flatten]
            | Div => simp [Exp.flatten]
        | UnOp u a => cases u; exact absurd rfl (hlN a)
        | Number v => simp [Exp.flatten]
        | Variable n => simp [Exp.flatten]
        | Mod e => simp [Exp.flatten]
        | Min es => simp [Exp.flatten]
        | Max es => simp [Exp.flatten]
    | Variable n2 =>
        cases l with
        | BinOp op a b =>
            cases op with
            | Add => exact absurd rfl (hlA a b)
            | Sub => exact absurd rfl (hlS a b)
            | Mul => simp [Exp.flatten]
            | Div => simp [Exp.flatten]
        | UnOp u a => cases u; exact absurd rfl (hlN a)
        | Number v => simp [Exp.flatten]
        | Variable n => simp [Exp.flatten]
        | Mod e => simp [Exp.flatten]
        | Min es => simp [Exp.flatten]
        | Max es => simp [Exp.flatten]
    | Mod e2 =>
        cases l with
        | BinOp op a b =>
            cases op with
            | Add => exact absurd rfl (hlA a b)
            | Sub => exact absurd rfl (hlS a b)
            | Mul => simp [Exp.flatten]
            | Div => simp [Exp.flatten]
        | UnOp u a => cases u; exact absurd rfl (hlN a)
        | Number v => simp [Exp.flatten]
        | Variable n => simp [Exp.flatten]
        | Mod e => simp [Exp.flatten]
        | Min es => simp [Exp.flatten]
        | Max es => simp [Exp.flatten]
    | Min es2 =>
        cases l with
        | BinOp op a b =>
            cases op with
            | Add => exact absurd rfl (hlA a b)
            | Sub => exact absurd rfl (hlS a b)
            | Mul => simp [Exp.flatten]
            | Div => simp [Exp.flatten]
        | UnOp u a => cases u; exact absurd rfl (hlN a)
        | Number v => simp [Exp.flatten]
        | Variable n => simp [Exp.flatten]
        | Mod e => simp [Exp.flatten]
        | Min es => simp [Exp.flatten]
        | Max es => simp [Exp.flatten]
    | Max es2 =>
        cases l with
        | BinOp op a b =>
            cases op with
            | Add => exact absurd rfl (hlA a b)
            | Sub => exact absurd rfl (hlS a b)
            | Mul => simp [Exp.flatten]
            | Div => simp [Exp.flatten]
        | UnOp u a => cases u; exact absurd rfl (hlN a)
        | Number v => simp [Exp.flatten]
        | Variable n => simp [Exp.flatten]
        | Mod e => simp [Exp.flatten]
        | Min es => simp [Exp.flatten]
        | Max es => simp [Exp.flatten]
  exact hr l hlA hlS hlN

theorem flatten_div_catchall (l r : Exp)
    (hlA : ∀ a b, l ≠ .BinOp .Add a b) (hlS : ∀ a b, l ≠ .BinOp .Sub a b) :
    Exp.flatten (.BinOp .Div l r) = .BinOp .Div (Exp.flatten l) (Exp.flatten r) := by
  cases l with
  | BinOp op a b =>
      cases op with
      | Add => exact absurd rfl (hlA a b)
      | Sub => exact absurd rfl (hlS a b)
      | Mul => simp [Exp.flatten]
      | Div => simp [Exp.flatten]
  | UnOp u a => simp [Exp.flatten]
  | Number v => simp [Exp.flatten]
  | Variable n => simp [Exp.flatten]
  | Mod e => simp [Exp.flatten]
  | Min es => simp [Exp.flatten]
  | Max es => simp [Exp.flatten]

theorem flatten_of_mulDivFree :
    ∀ e : Exp, Exp.mulDivFree e = true → Exp.flatten e = e
  | .Number _, _ => by simp [Exp.flatten]
  | .Variable _, _ => by simp [Exp.flatten]
  | .Mod _, _ => by simp [Exp.flatten]
  | .Min _, _ => by simp [Exp.flatten]
  | .Max _, _ => by simp [Exp.flatten]
  | .UnOp _ _, _ => by simp [Exp.flatten]
  | .BinOp op l r, h => by
      cases op with
      | Add =>
          simp [Exp.mulDivFree] at h
          rw [flatten_add_eq, flatten_of_mulDivFree l h.1,
              flatten_of_mulDivFree r h.2]
      | Sub =>
          simp [Exp.mulDivFree] at h
          rw [flatten_sub_eq, flatten_of_mulDivFree l h.1,
              flatten_of_mulDivFree r h.2]
      | Mul => simp [Exp.mulDivFree] at h
      | Div => simp [Exp.mulDivFree] at h

theorem flatten_flatten_of_nestFree :
    ∀ e : Exp, Exp.nestFree e = true →
      Exp.flatten (Exp.flatten e) = Exp.flatten e := by
  intro e
  induction e using Exp.flatten.induct with
  | case1 l r c ih =>
      intro h
      simp [Exp.nestFree, Exp.mulDivFree] at h
      rw [show Exp.flatten (.BinOp .Mul (.BinOp .Add l r) c)
            = Exp.flatten (.BinOp .Add (.BinOp .Mul l c) (.BinOp .Mul r c)) by
          simp [Exp.flatten]]
      exact ih (by simp [Exp.nestFree, Exp.mulDivFree, h.1.1, h.1.2, h.2])
  | case2 l r c ih =>
      intro h
      simp [Exp.nestFree, Exp.mulDivFree] at h
      rw [show Exp.flatten (.BinOp .Mul (.BinOp .Sub l r) c)
            = Exp.flatten (.BinOp .Sub (.BinOp .Mul l c) (.BinOp .Mul r c)) by
          simp [Exp.flatten]]
      exact ih (by simp [Exp.nestFree, Exp.mulDivFree, h.1.1, h.1.2, h.2])
  | case3 c l r hA hS ih =>
      intro h
      simp [Exp.nestFree, Exp.mulDivFree] at h
      rw [show Exp.flatten (.BinOp .Mul c (.BinOp .Add l r))
            = Exp.flatten (.BinOp .Add (.BinOp .Mul c l) (.BinOp .Mul c r)) by
          cases c with
          | BinOp op a b =>
              cases op with
              | Add => exact absurd rfl (fun hc => hA a b hc)
              | Sub => exact absurd rfl (fun hc => hS a b hc)
              | Mul => simp [Exp.flatten]
              | Div => simp [Exp.flatten]
          | UnOp u a => cases u; simp [Exp.flatten]
          | Number v => simp [Exp.flatten]
          | Variable n => simp [Exp.flatten]
          | Mod e2 => simp [Exp.flatten]
          | Min es => simp [Exp.flatten]
          | Max es => simp [Exp.flatten]]
      exact ih (by simp [Exp.nestFree, Exp.mulDivFree, h.1, h.2.1, h.2.2])
  | case4 c l r hA hS ih =>
      intro h
      simp [Exp.nestFree, Exp.mulDivFree] at h
      rw [show Exp.flatten (.BinOp .Mul c (.BinOp .Sub l r))
            = Exp.flatten (.BinOp .Sub (.BinOp .Mul c l) (.BinOp .Mul c r)) by
          cases c with
          | BinOp op a b =>
              cases op with
              | Add => exact absurd rfl (fun hc => hA a b hc)
              | Sub => exact absurd rfl (fun hc => hS a b hc)
              | Mul => simp [Exp.flatten]
              | Div => simp [Exp.flatten]
          | UnOp u a => cases u; simp [Exp.flatten]
          | Number v => simp [Exp.flatten]
          | Variable n => simp [Exp.flatten]
          | Mod e2 => simp [Exp.flatten]
          | Min es => simp [Exp.flatten]
          | Max es => simp [Exp.flatten]]
      exact ih (by simp [Exp.nestFree, Exp.mulDivFree, h.1, h.2.1, h.2.2])
  | case5 l c hA hS ih =>
      intro h
      rw [show Exp.flatten (.BinOp .Mul (.UnOp .Neg l) c)
            = .UnOp .Neg (Exp.flatten (.BinOp .Mul l c)) by
          cases c with
          | BinOp op a b =>
              cases op with
              | Add => exact absurd rfl (fun hc => hA a b hc)
              | Sub => exact absurd rfl (fun hc => hS a b hc)
              | Mul => simp [Exp.flatten]
              | Div => simp [Exp.flatten]
          | UnOp u a => cases u; simp [Exp.flatten]
          | Number v => simp [Exp.flatten]
          | Variable n => simp [Exp.flatten]
          | Mod e2 => simp [Exp.flatten]
          | Min es => simp [Exp.flatten]
          | Max es => simp [Exp.flatten]]
      exact flatten_unop_eq _ _
  | case6 c r hA hS hN ih =>
      intro h
      rw [show Exp.flatten (.BinOp .Mul c (.UnOp .Neg r))
            = .UnOp .Neg (Exp.flatten (.BinOp .Mul c r)) by
          cases c with
          | BinOp op a b =>
              cases op with
              | Add => exact absurd rfl (fun hc => hA a b hc)
              | Sub => exact absurd rfl (fun hc => hS a b hc)
              | Mul => simp [Exp.flatten]
              | Div => simp [Exp.flatten]
          | UnOp u a => cases u; exact absurd rfl (fun hc => hN a hc)
          | Number v => simp [Exp.flatten]
          | Variable n => simp [Exp.flatten]
          | Mod e2 => simp [Exp.flatten]
          | Min es => simp [Exp.flatten]
          | Max es => simp [Exp.flatten]]
      exact flatten_unop_eq _ _
  | case7 l r c ihl ihr =>
      intro h
      simp [Exp.nestFree, Exp.mulDivFree] at h
      rw [show Exp.flatten (.BinOp .Div (.BinOp .Add l r) c)
            = .BinOp .Add (Exp.flatten (.BinOp .Div l c))
                (Exp.flatten (.BinOp .Div r c)) by
          simp [Exp.flatten]]
      rw [flatten_add_eq,
          ihl (by simp [Exp.nestFree, Exp.mulDivFree, h.1.1, h.2]),
          ihr (by simp [Exp.nestFree, Exp.mulDivFree, h.1.2, h.2])]
  | case8 l r c ihl ihr =>
      intro h
      simp [Exp.nestFree, Exp.mulDivFree] at h
      rw [show Exp.flatten (.BinOp .Div (.BinOp .Sub l r) c)
            = .BinOp .Sub (Exp.flatten (.BinOp .Div l c))
                (Exp.flatten (.BinOp .Div r c)) by
          simp [Exp.flatten]]
      rw [flatten_sub_eq,
          ihl (by simp [Exp.nestFree, Exp.mulDivFree, h.1.1, h.2]),
          ihr (by simp [Exp.nestFree, Exp.mulDivFree, h.1.2, h.2])]
  | case9 op l r h1 h2 h3 h4 h5 h6 h7 h8 ihl ihr =>
      intro h
      cases op with
      | Add =>
          simp [Exp.nestFree] at h
          rw [flatten_add_eq, flatten_add_eq, ihl h.1, ihr h.2]
      | Sub =>
          simp [Exp.nestFree] at h
          rw [flatten_sub_eq, flatten_sub_eq, ihl h.1, ihr h.2]
      | Mul =>
          simp [Exp.nestFree] at h
          have hfl := flatten_of_mulDivFree l h.1
          have hfr := flatten_of_mulDivFree r h.2
          have step : Exp.flatten (.BinOp .Mul l r) = .BinOp .Mul l r := by
            rw [flatten_mul_catchall l r
                  (fun a b hab => h1 a b rfl hab) (fun a b hab => h2 a b rfl hab)
                  (fun a b hab => h3 a b rfl hab) (fun a b hab => h4 a b rfl hab)
                  (fun a hab => h5 a rfl hab) (fun a hab => h6 a rfl hab),
                hfl, hfr]
          rw [step, step]
      | Div =>
          simp [Exp.nestFree] at h
          have hfl := flatten_of_mulDivFree l h.1
          have hfr := flatten_of_mulDivFree r h.2
          have step : Exp.flatten (.BinOp .Div l r) = .BinOp .Div l r := by
            rw [flatten_div_catchall l r
                  (fun a b hab => h7 a b rfl hab) (fun a b hab => h8 a b rfl hab),
                hfl, hfr]
          rw [step, step]
  | case10 v => intro h; simp [Exp.flatten]
  | case11 n => intro h; simp [Exp.flatten]
  | case12 e => intro h; simp [Exp.flatten]
  | case13 es => intro h; simp [Exp.flatten]
  | case14 es => intro h; simp [Exp.flatten]
  | case15 op e => intro h; simp [Exp.flatten]

/-- C1 (counterexample): `flatten` is not idempotent.  For the expression
`((x + y) * z) * w` the first pass only rewrites the inner product, producing
`((x*z + y*z)) * w`, and a second pass distributes the remaining product, so
the two results differ structurally. -/
theorem claim_C1_counterexample :
    Exp.flatten (Exp.flatten
        (.BinOp .Mul
          (.BinOp .Mul (.BinOp .Add (.Variable "x") (.Variable "y")) (.Variable "z"))
          (.Variable "w")))
      ≠ Exp.flatten
        (.BinOp .Mul
          (.BinOp .Mul (.BinOp .Add (.Variable "x") (.Variable "y")) (.Variable "z"))
          (.Variable "w")) := by
  simp [Exp.flatten]

/-- C1 (amended): `flatten` is idempotent on every expanded expression in
which products and quotients are not nested inside other products or
quotients (`nestFree`): for such `e`, `flatten (flatten e)` is structurally
equal to `flatten e`.  (On arbitrary expressions idempotence fails, see the
counterexample.) -/
theorem claim_C1_flatten_idempotent (e : Exp) (h : Exp.nestFree e = true) :
    Exp.flatten (Exp.flatten e) = Exp.flatten e :=
  flatten_flatten_of_nestFree e h

/-- C1 witness: the amended idempotence applied to `(x + y) * z`. -/
theorem claim_C1_witness :
    Exp.nestFree
        (.BinOp .Mul (.BinOp .Add (.Variable "x") (.Variable "y")) (.Variable "z")) = true
      ∧ Exp.flatten (Exp.flatten
          (.BinOp .Mul (.BinOp .Add (.Variable "x") (.Variable "y")) (.Variable "z")))
        = Exp.flatten
          (.BinOp .Mul (.BinOp .Add (.Variable "x") (.Variable "y")) (.Variable "z")) :=
  ⟨by rfl, claim_C1_flatten_idempotent _ (by rfl)⟩

/-- C3 (counterexample): with `strict = false` and `"x"` already bound in the
(single, hence innermost) frame, `declare_variable` does not bind — the
frame-level `Frame::declare_variable` rejects the existing name — contradicting
the claim's "otherwise it binds name to value in the innermost (top) frame". -/
theorem claim_C3_counterexample :
    TransformerContext.declare_variable
        ⟨[⟨[("x", Primitive.Number 1)]⟩]⟩ "x" (Primitive.Number 2) false
      = .error (.AlreadyExistingVariable "x")
    ∧ (TransformerContext.declare_variable
        ⟨[⟨[("x", Primitive.Number 1)]⟩]⟩ "x" (Primitive.Number 2) false).toOption
      = none :=
  ⟨rfl, rfl⟩

/-- C3 (amended): `declare_variable(name, value, strict)` returns `Ok` with
every frame unchanged when `name` is `_`; fails with
`AlreadyExistingVariable` when `strict` is true and `name` is bound in any
frame; otherwise it fails with `AlreadyExistingVariable` when `name` is
already bound in the innermost (top) frame even with `strict` false, and only
binds `name` to `value` in the top frame when it is absent from it. -/
theorem claim_C3_declare_variable (ctx : TransformerContext) (name : String)
    (value : Primitive) (strict : Bool)
    (top : Frame Primitive) (rest : List (Frame Primitive))
    (hframes : ctx.frames = rest ++ [top]) :
    (name = "_" → ctx.declare_variable name value strict = .ok ctx)
    ∧ (name ≠ "_" → strict = true → (ctx.get_value name).isSome →
        ctx.declare_variable name value strict
          = .error (.AlreadyExistingVariable name))
    ∧ (name ≠ "_" → (strict = false ∨ ctx.get_value name = none) →
        (top.has_variable name = true →
          ctx.declare_variable name value strict
            = .error (.AlreadyExistingVariable name))
        ∧ (top.has_variable name = false →
          ctx.declare_variable name value strict
            = .ok ⟨rest ++ [⟨(name, value) :: top.vars⟩]⟩)) := by
  refine ⟨?_, ?_, ?_⟩
  · intro h
    simp [TransformerContext.declare_variable, h]
  · intro hne hs hsome
    simp [TransformerContext.declare_variable, hne, hs, hsome]
  · intro hne hns
    have hcond : (strict && (ctx.get_value name).isSome) = false := by
      rcases hns with h | h <;> simp [h]
    have hlast : ctx.frames.getLast? = some top := by
      rw [hframes]; exact List.getLast?_concat _
    have hdrop : ctx.frames.dropLast = rest := by
      rw [hframes]; exact List.dropLast_concat
    constructor
    · intro hhas
      simp [TransformerContext.declare_variable, hne, hcond, hlast,
            Frame.declare_variable, hhas]
    · intro hhas
      simp [TransformerContext.declare_variable, hne, hcond, hlast, hdrop,
            Frame.declare_variable, hhas]

/-- C3 witness: declaring a fresh name in a context with one empty frame
binds it in that frame. -/
theorem claim_C3_witness :
    TransformerContext.declare_variable ⟨[⟨[]⟩]⟩ "y" (Primitive.Number 1) true
      = .ok ⟨[⟨[("y", Primitive.Number 1)]⟩]⟩ := by
  have h := (claim_C3_declare_variable ⟨[⟨[]⟩]⟩ "y" (Primitive.Number 1) true
      ⟨[]⟩ [] rfl).2.2 (by decide) (Or.inr rfl)
  simpa using h.2 rfl

/-- C7 (counterexample): nothing in the graph data structure forces a stored
edge's `from` to equal the name of the node holding it.  For the graph with
one node `"a"` storing an edge whose `from` is `"b"`, `neighbour_of "a"`
returns that edge, refuting "each of which … has from equal to u". -/
theorem claim_C7_counterexample :
    Graph.neighbour_of ⟨[⟨"a", [⟨"b", "a", none⟩]⟩]⟩ "a"
      = .ok [⟨"b", "a", none⟩]
    ∧ (⟨"b", "a", none⟩ : GraphEdge).from_ ≠ "a" :=
  ⟨rfl, by decide⟩

/-- C7 (amended): for every graph `G` and name `u` naming a node of `G`, the
neighbour query returns edges that are all members of `edges(G)`, and — under
the construction invariant that every stored edge's `from` equals its node's
name — all have `from = u`; a name naming no node fails with `NotFound`. -/
theorem claim_C7_neighbour_of (g : Graph) (u : String) :
    (∀ es, g.neighbour_of u = .ok es →
      (∀ e ∈ es, e ∈ g.edges)
      ∧ (Graph.edgesWellFormed g → ∀ e ∈ es, e.from_ = u))
    ∧ ((∀ n ∈ g.vertices, n.name ≠ u) →
      g.neighbour_of u
        = .error (.NotFound ("node " ++ u ++ " not found in graph"))) := by
  constructor
  · intro es hok
    unfold Graph.neighbour_of at hok
    cases hfind : g.vertices.find? (fun n => n.name = u) with
    | none => rw [hfind] at hok; cases hok
    | some node =>
        rw [hfind] at hok
        cases hok
        have hmem : node ∈ g.vertices := List.mem_of_find?_eq_some hfind
        have hname : node.name = u := by
          have := List.find?_some hfind
          simpa using this
        constructor
        · intro e he
          unfold Graph.edges
          exact List.mem_flatten.mpr
            ⟨node.edges, List.mem_map_of_mem _ hmem, he⟩
        · intro hwf e he
          rw [← hname]
          exact hwf node hmem e he
  · intro hnone
    unfold Graph.neighbour_of
    have : g.vertices.find? (fun n => n.name = u) = none := by
      apply List.find?_eq_none.mpr
      intro n hn
      simpa using hnone n hn
    rw [this]

/-- C7 witness: a well-formed two-node graph where the query on `"a"` returns
its single edge, which is in `edges(G)` and has `from = "a"`. -/
theorem claim_C7_witness :
    (∀ e ∈ [(⟨"a", "b", none⟩ : GraphEdge)],
        e ∈ Graph.edges ⟨[⟨"a", [⟨"a", "b", none⟩]⟩, ⟨"b", []⟩]⟩)
    ∧ (∀ e ∈ [(⟨"a", "b", none⟩ : GraphEdge)], e.from_ = "a") := by
  have h := (claim_C7_neighbour_of ⟨[⟨"a", [⟨"a", "b", none⟩]⟩, ⟨"b", []⟩]⟩ "a").1
      [⟨"a", "b", none⟩] rfl
  refine ⟨h.1, h.2 ?_⟩
  intro n hn e he
  fin_cases hn
  · fin_cases he
    rfl
  · fin_cases he

/-- C10: `is_leaf` is true exactly on `BinOp` and `UnOp` nodes, and the
`Display` rendering of `UnOp(op, inner)` with `is_leaf(inner)` true is the
operator immediately followed by `inner`'s rendering, without parentheses. -/
theorem claim_C10_unop_display :
    (∀ e : Exp, Exp.is_leaf e = true ↔
      ((∃ op l r, e = .BinOp op l r) ∨ (∃ op i, e = .UnOp op i)))
    ∧ (∀ (op : UnOp) (inner : Exp), Exp.is_leaf inner = true →
      Exp.to_string (.UnOp op inner) = op.render ++ Exp.to_string inner) := by
  constructor
  · intro e
    cases e with
    | BinOp op l r => exact iff_of_true rfl (Or.inl ⟨op, l, r, rfl⟩)
    | UnOp op i => exact iff_of_true rfl (Or.inr ⟨op, i, rfl⟩)
    | Number v => simp [Exp.is_leaf]
    | Variable n => simp [Exp.is_leaf]
    | Mod e2 => simp [Exp.is_leaf]
    | Min es => simp [Exp.is_leaf]
    | Max es => simp [Exp.is_leaf]
  · intro op inner h
    simp [Exp.to_string, h]

/-- C10 witness: `Neg` of `Add(a, b)` renders as `"-a + b"`. -/
theorem claim_C10_witness :
    Exp.is_leaf (.BinOp .Add (.Variable "a") (.Variable "b")) = true
    ∧ Exp.to_string (.UnOp .Neg (.BinOp .Add (.Variable "a") (.Variable "b")))
      = "-a + b" := by
  refine ⟨rfl, ?_⟩
  rw [claim_C10_unop_display.2 .Neg (.BinOp .Add (.Variable "a") (.Variable "b")) rfl]
  simp [Exp.to_string, Exp.to_string_with_precedence, BinOp.precedence,
        BinOp.render, UnOp.render]

/-- C5: the clarabel backend rejects any model with a variable whose domain
is neither `Real` nor `NonNegativeReal` with
`InvalidDomain{expected = [Real, NonNegativeReal], got = offending}` — the
offending variables being exactly the domain entries failing that predicate —
and, when all domains are valid, rejects direction `Satisfy` with
`UnimplementedOptimizationType`. -/
theorem claim_C5_clarabel_errors (lp : LinearModel)
    (ext : Except ResolutionError (String → Rat)) :
    ((∃ p ∈ lp.domain, p.2 ≠ VariableType.Real ∧ p.2 ≠ VariableType.NonNegativeReal) →
      solve_real_lp_problem_clarabel lp ext
        = .error (.InvalidDomain [VariableType.Real, VariableType.NonNegativeReal]
            (find_invalid_variables lp.domain
              (fun var =>
                match var with
                | .Real => true
                | .NonNegativeReal => true
                | _ => false))))
    ∧ ((∀ p ∈ lp.domain, p.2 = VariableType.Real ∨ p.2 = VariableType.NonNegativeReal) →
      lp.optimization_type = .Satisfy →
      solve_real_lp_problem_clarabel lp ext
        = .error (.UnimplementedOptimizationType
            [OptimizationType.Min, OptimizationType.Max] .Satisfy)) := by
  constructor
  · intro h
    obtain ⟨p, hp, hr, hnr⟩ := h
    have hbadpred :
        (fun var =>
          match var with
          | VariableType.Real => true
          | VariableType.NonNegativeReal => true
          | _ => false) p.2 = false := by
      cases hp2 : p.2 with
      | Real => exact absurd hp2 hr
      | NonNegativeReal => exact absurd hp2 hnr
      | Integer => rfl
      | Boolean => rfl
    have hne : (find_invalid_variables lp.domain
        (fun var =>
          match var with
          | VariableType.Real => true
          | VariableType.NonNegativeReal => true
          | _ => false)).isEmpty = false := by
      unfold find_invalid_variables
      rw [List.isEmpty_eq_false_iff_exists_mem]
      exact ⟨p, List.mem_filter.mpr ⟨hp, by simp [hbadpred]⟩⟩
    unfold solve_real_lp_problem_clarabel
    simp only [hne]
    rfl
  · intro hall hsat
    have hempty : (find_invalid_variables lp.domain
        (fun var =>
          match var with
          | VariableType.Real => true
          | VariableType.NonNegativeReal => true
          | _ => false)).isEmpty = true := by
      unfold find_invalid_variables
      rw [List.isEmpty_iff, List.filter_eq_nil_iff]
      intro p hp
      rcases hall p hp with h | h <;> simp [h]
    unfold solve_real_lp_problem_clarabel
    simp only [hempty, hsat]
    rfl

/-- C5 witness: a one-variable `Boolean`-domain model is rejected with
`InvalidDomain`, and a valid-domain `Satisfy` model is rejected with
`UnimplementedOptimizationType`. -/
theorem claim_C5_witness :
    solve_real_lp_problem_clarabel
        ⟨["x"], 0, .Min, [1], [], [("x", VariableType.Boolean)]⟩ (.error .Unbounded)
      = .error (.InvalidDomain [VariableType.Real, VariableType.NonNegativeReal]
          [("x", VariableType.Boolean)])
    ∧ solve_real_lp_problem_clarabel
        ⟨["x"], 0, .Satisfy, [1], [], [("x", VariableType.Real)]⟩ (.error .Unbounded)
      = .error (.UnimplementedOptimizationType
          [OptimizationType.Min, OptimizationType.Max] .Satisfy) := by
  constructor
  · have h := (claim_C5_clarabel_errors
        ⟨["x"], 0, .Min, [1], [], [("x", VariableType.Boolean)]⟩ (.error .Unbounded)).1
        ⟨("x", VariableType.Boolean), by decide, by decide, by decide⟩
    simpa using h
  · exact (claim_C5_clarabel_errors
        ⟨["x"], 0, .Satisfy, [1], [], [("x", VariableType.Real)]⟩ (.error .Unbounded)).2
        (by intro p hp; fin_cases hp; exact Or.inl rfl) rfl

/-- C4: `get_addressable_value` on `name[e1]…[en]`: unbound base names fail
with `MissingVariable`; a non-`Number` access kind fails with
`WrongArgument`; with a bound base and all-`Number` accesses, the query fails
with `OutOfBounds` exactly when the number of `Iterable` wrappers of the
base's kind exceeds `n`, and otherwise returns the kind with all `Iterable`
wrappers stripped. -/
theorem claim_C4_get_addressable_value (ctx : TypeCheckerContext)
    (a : AddressableAccess) :
    (ctx.get_value a.name = none →
      ctx.get_addressable_value a = .error (.MissingVariable a.name))
    ∧ (∀ v, ctx.get_value a.name = some v →
      (∃ acc ∈ a.accesses, acc.ty ≠ PrimitiveKind.Number) →
      ∃ msg, ctx.get_addressable_value a = .error (.WrongArgument msg))
    ∧ (∀ v, ctx.get_value a.name = some v →
      (∀ acc ∈ a.accesses, acc.ty = PrimitiveKind.Number) →
      ((a.accesses.length < v.strip_iterable_depth.1 ↔
          ∃ msg, ctx.get_addressable_value a = .error (.OutOfBounds msg))
        ∧ (v.strip_iterable_depth.1 ≤ a.accesses.length →
          ctx.get_addressable_value a = .ok v.strip_iterable_depth.2))) := by
  refine ⟨?_, ?_, ?_⟩
  · intro h
    simp [TypeCheckerContext.get_addressable_value, h]
  · intro v hv hbad
    obtain ⟨acc, hmem, hne⟩ := hbad
    have hpred : (fun access : AccessExp =>
        match access.ty with
        | PrimitiveKind.Number => false
        | _ => true) acc = true := by
      cases hacc : acc.ty <;> simp_all
    have hsome : (a.accesses.find? (fun access =>
        match access.ty with
        | PrimitiveKind.Number => false
        | _ => true)).isSome := by
      rw [List.find?_isSome]
      exact ⟨acc, hmem, hpred⟩
    obtain ⟨acc2, hfind⟩ := Option.isSome_iff_exists.mp hsome
    have hres : ctx.get_addressable_value a
        = .error (.WrongArgument
            ("Expected value of type \"Number\" to index array, got \""
              ++ acc2.ty.to_string ++ "\", check the definition of \""
              ++ acc2.text ++ "\"")) := by
      simp [TypeCheckerContext.get_addressable_value, hv, hfind]
    exact ⟨_, hres⟩
  · intro v hv hall
    have hfind : a.accesses.find? (fun access =>
        match access.ty with
        | PrimitiveKind.Number => false
        | _ => true) = none := by
      apply List.find?_eq_none.mpr
      intro x hx
      have := hall x hx
      simp [this]
    have hres : ctx.get_addressable_value a
        = if a.accesses.length < v.strip_iterable_depth.1 then
            .error (.OutOfBounds
              ("Indexing " ++ a.name ++ " with "
                ++ toString a.accesses.length ++ " indexes, but it only has "
                ++ toString v.strip_iterable_depth.1 ++ " dimensions"))
          else .ok v.strip_iterable_depth.2 := by
      simp [TypeCheckerContext.get_addressable_value, hv, hfind]
    constructor
    · constructor
      · intro hlt
        exact ⟨_, by rw [hres, if_pos hlt]⟩
      · intro hmsg
        by_contra hnot
        rw [hres, if_neg hnot] at hmsg
        obtain ⟨msg, hmsg⟩ := hmsg
        cases hmsg
    · intro hle
      rw [hres, if_neg (by omega)]

/-- C4 witness: base `"A"` of kind `Number[]` indexed once type-checks to
`Number`; indexed zero times it is `OutOfBounds`. -/
theorem claim_C4_witness :
    TypeCheckerContext.get_addressable_value
        ⟨[⟨[("A", PrimitiveKind.Iterable PrimitiveKind.Number)]⟩], []⟩
        ⟨"A", [⟨PrimitiveKind.Number, "0"⟩]⟩
      = .ok PrimitiveKind.Number
    ∧ ∃ msg,
      TypeCheckerContext.get_addressable_value
        ⟨[⟨[("A", PrimitiveKind.Iterable PrimitiveKind.Number)]⟩], []⟩
        ⟨"A", []⟩
      = .error (.OutOfBounds msg) := by
  constructor
  · exact ((claim_C4_get_addressable_value
        ⟨[⟨[("A", PrimitiveKind.Iterable PrimitiveKind.Number)]⟩], []⟩
        ⟨"A", [⟨PrimitiveKind.Number, "0"⟩]⟩).2.2
        (PrimitiveKind.Iterable PrimitiveKind.Number) rfl
        (by intro acc hacc; fin_cases hacc; rfl)).2 (by simp [PrimitiveKind.strip_iterable_depth])
  · exact ((claim_C4_get_addressable_value
        ⟨[⟨[("A", PrimitiveKind.Iterable PrimitiveKind.Number)]⟩], []⟩
        ⟨"A", []⟩).2.2
        (PrimitiveKind.Iterable PrimitiveKind.Number) rfl
        (by intro acc hacc; cases hacc)).1.mp
        (by simp [PrimitiveKind.strip_iterable_depth])

theorem get_trace_loop_spec :
    ∀ (cur : TransformError) (pre : List (InputSpan × Option String))
      (s : InputSpan) (c : Option String),
      TransformError.get_trace_loop cur (pre ++ [(s, c)])
        = pre ++ (s, c) :: dedupAdjacentGo s cur.span_chain
  | .SpannedError inner span ctx, pre, s, c => by
      rw [TransformError.get_trace_loop, List.getLast?_concat]
      dsimp only
      by_cases h : s = span
      · rw [if_pos h, get_trace_loop_spec inner pre s c,
            TransformError.span_chain, dedupAdjacentGo, if_pos h.symm]
      · rw [if_neg h, get_trace_loop_spec inner (pre ++ [(s, c)]) span ctx,
            TransformError.span_chain, dedupAdjacentGo,
            if_neg (fun hh => h hh.symm)]
        simp
  | .MissingVariable _, pre, s, c => by
      simp [TransformError.get_trace_loop, TransformError.span_chain,
            dedupAdjacentGo]
  | .AlreadyExistingVariable _, pre, s, c => by
      simp [TransformError.get_trace_loop, TransformError.span_chain,
            dedupAdjacentGo]
  | .OutOfBounds _, pre, s, c => by
      simp [TransformError.get_trace_loop, TransformError.span_chain,
            dedupAdjacentGo]
  | .WrongArgument _, pre, s, c => by
      simp [TransformError.get_trace_loop, TransformError.span_chain,
            dedupAdjacentGo]
  | .Unspreadable _, pre, s, c => by
      simp [TransformError.get_trace_loop, TransformError.span_chain,
            dedupAdjacentGo]
  | .OperatorError _, pre, s, c => by
      simp [TransformError.get_trace_loop, TransformError.span_chain,
            dedupAdjacentGo]
  | .Other _, pre, s, c => by
      simp [TransformError.get_trace_loop, TransformError.span_chain,
            dedupAdjacentGo]

theorem to_string_eq_innermost :
    ∀ e : TransformError, e.to_string = e.innermost_message
  | .SpannedError inner _ _ => by
      rw [TransformError.to_string, TransformError.innermost_message,
          to_string_eq_innermost inner]
  | .MissingVariable _ => rfl
  | .AlreadyExistingVariable _ => rfl
  | .OutOfBounds _ => rfl
  | .WrongArgument _ => rfl
  | .Unspreadable _ => rfl
  | .OperatorError _ => rfl
  | .Other _ => rfl

/-- C6 (counterexample): for a doubly wrapped error whose outer wrapper
carries span `2:3` (offset 5) and whose inner wrapper carries span `1:1`
(offset 0), `get_trace` lists the inner pair first and the rendering prints
the `1:1` line before the `2:3` line — the lines are innermost-first, not
outermost-first as claimed. -/
theorem claim_C6_counterexample :
    TransformError.get_trace
        (.SpannedError (.SpannedError (.MissingVariable "x") ⟨0, 1, 1, 1, 2⟩ none)
          ⟨5, 2, 3, 2, 4⟩ none)
      = [(⟨0, 1, 1, 1, 2⟩, none), (⟨5, 2, 3, 2, 4⟩, none)]
    ∧ (⟨0, 1, 1, 1, 2⟩ : InputSpan) ≠ ⟨5, 2, 3, 2, 4⟩
    ∧ TransformError.get_traced_error
        (.SpannedError (.SpannedError (.MissingVariable "x") ⟨0, 1, 1, 1, 2⟩ none)
          ⟨5, 2, 3, 2, 4⟩ none)
      = "[Missing variable] x\n\tat 1:1\n\tat 2:3" :=
  ⟨rfl, by decide, rfl⟩

/-- C6 (amended): `get_trace` returns the chain of `(span, context)` pairs of
the nested `SpannedError` wrappers with adjacent identical spans
de-duplicated (keeping the outermost pair of each run), ordered
innermost-first; the traced rendering prints the innermost error message
followed by one `"\tat line:column (context?)"` line per pair in that same
innermost-first order. -/
theorem claim_C6_get_trace (e : TransformError) :
    e.get_trace = (dedupAdjacentBySpan e.span_chain).reverse
    ∧ e.get_traced_error
      = e.innermost_message ++ "\n"
        ++ "\n".intercalate
            (((dedupAdjacentBySpan e.span_chain).reverse).map
              TransformError.trace_line) := by
  have htrace : e.get_trace = (dedupAdjacentBySpan e.span_chain).reverse := by
    cases e with
    | SpannedError inner span ctx =>
        rw [TransformError.get_trace,
            show ([(span, ctx)] : List (InputSpan × Option String))
              = [] ++ [(span, ctx)] by rfl,
            get_trace_loop_spec inner [] span ctx,
            TransformError.span_chain]
        rfl
    | MissingVariable s => rfl
    | AlreadyExistingVariable s => rfl
    | OutOfBounds s => rfl
    | WrongArgument s => rfl
    | Unspreadable k => rfl
    | OperatorError s => rfl
    | Other s => rfl
  refine ⟨htrace, ?_⟩
  rw [TransformError.get_traced_error, to_string_eq_innermost, htrace]

theorem read_last_invalid (v : IterableKind) (i : Nat) (h : ¬ i < v.len) :
    ∃ msg, v.read_last i = .error (.OutOfBounds msg) := by
  cases v with
  | Numbers xs =>
      have hn : xs[i]? = none := by
        rw [List.getElem?_eq_none_iff]
        simpa [IterableKind.len] using h
      exact ⟨IterableKind.out_of_bounds_msg i, by simp [IterableKind.read_last, hn]⟩
  | Strings xs =>
      have hn : xs[i]? = none := by
        rw [List.getElem?_eq_none_iff]
        simpa [IterableKind.len] using h
      exact ⟨IterableKind.out_of_bounds_msg i, by simp [IterableKind.read_last, hn]⟩
  | Edges xs =>
      have hn : xs[i]? = none := by
        rw [List.getElem?_eq_none_iff]
        simpa [IterableKind.len] using h
      exact ⟨IterableKind.out_of_bounds_msg i, by simp [IterableKind.read_last, hn]⟩
  | Nodes xs =>
      have hn : xs[i]? = none := by
        rw [List.getElem?_eq_none_iff]
        simpa [IterableKind.len] using h
      exact ⟨IterableKind.out_of_bounds_msg i, by simp [IterableKind.read_last, hn]⟩
  | Graphs xs =>
      have hn : xs[i]? = none := by
        rw [List.getElem?_eq_none_iff]
        simpa [IterableKind.len] using h
      exact ⟨IterableKind.out_of_bounds_msg i, by simp [IterableKind.read_last, hn]⟩
  | Tuple xs =>
      have hn : xs[i]? = none := by
        rw [List.getElem?_eq_none_iff]
        simpa [IterableKind.len] using h
      exact ⟨IterableKind.out_of_bounds_msg i, by simp [IterableKind.read_last, hn]⟩
  | Booleans xs =>
      have hn : xs[i]? = none := by
        rw [List.getElem?_eq_none_iff]
        simpa [IterableKind.len] using h
      exact ⟨IterableKind.out_of_bounds_msg i, by simp [IterableKind.read_last, hn]⟩
  | Iterable xs =>
      have hn : xs[i]? = none := by
        rw [List.getElem?_eq_none_iff]
        simpa [IterableKind.len] using h
      exact ⟨IterableKind.out_of_bounds_msg i, by simp [IterableKind.read_last, hn]⟩

theorem read_loop_invalid :
    ∀ (idx : List Nat) (v : IterableKind), idx ≠ [] →
      v.validAccess idx = false →
      ∃ msg, v.read_loop idx = .error (.OutOfBounds msg)
  | [], _, h, _ => absurd rfl h
  | [i], v, _, hval => by
      have hlt : ¬ i < v.len := by
        intro hk
        rw [show IterableKind.validAccess v [i] = decide (i < v.len) from rfl] at hval
        simp [hk] at hval
      have := read_last_invalid v i hlt
      simpa [IterableKind.read_loop] using this
  | i :: j :: rest, v, _, hval => by
      cases v with
      | Iterable vs =>
          cases hget : vs[i]? with
          | none =>
              exact ⟨IterableKind.out_of_bounds_msg i, by simp [IterableKind.read_loop, hget]⟩
          | some next =>
              have hval2 : next.validAccess (j :: rest) = false := by
                rw [show IterableKind.validAccess (.Iterable vs) (i :: j :: rest)
                      = (match vs[i]? with
                         | some nx => nx.validAccess (j :: rest)
                         | none => false) from rfl, hget] at hval
                exact hval
              have ih := read_loop_invalid (j :: rest) next (by simp) hval2
              obtain ⟨msg, hmsg⟩ := ih
              exact ⟨msg, by simpa [IterableKind.read_loop, hget] using hmsg⟩
      | Numbers xs => exact ⟨IterableKind.out_of_bounds_msg i, by simp [IterableKind.read_loop]⟩
      | Strings xs => exact ⟨IterableKind.out_of_bounds_msg i, by simp [IterableKind.read_loop]⟩
      | Edges xs => exact ⟨IterableKind.out_of_bounds_msg i, by simp [IterableKind.read_loop]⟩
      | Nodes xs => exact ⟨IterableKind.out_of_bounds_msg i, by simp [IterableKind.read_loop]⟩
      | Graphs xs => exact ⟨IterableKind.out_of_bounds_msg i, by simp [IterableKind.read_loop]⟩
      | Tuple xs => exact ⟨IterableKind.out_of_bounds_msg i, by simp [IterableKind.read_loop]⟩
      | Booleans xs => exact ⟨IterableKind.out_of_bounds_msg i, by simp [IterableKind.read_loop]⟩

/-- C8: `read` with an empty index vector returns `Primitive::Undefined`
without ever failing; with a non-empty index vector whose access path is
invalid — some index out of range at its level, including any index applied
below a non-`Iterable` level — it fails with `OutOfBounds`. -/
theorem claim_C8_read (v : IterableKind) (indexes : List Nat) :
    (indexes = [] → v.read indexes = .ok .Undefined)
    ∧ (indexes ≠ [] → v.validAccess indexes = false →
      ∃ msg, v.read indexes = .error (.OutOfBounds msg)) := by
  constructor
  · intro h
    subst h
    rfl
  · intro hne hval
    have : v.read indexes = v.read_loop indexes := by
      unfold IterableKind.read
      rw [if_neg (by simpa [List.isEmpty_iff] using hne)]
    rw [this]
    exact read_loop_invalid indexes v hne hval

/-- C8 witness: reading `[1,2]` with no indexes yields `Undefined`; reading
index `5` of it is `OutOfBounds`. -/
theorem claim_C8_witness :
    IterableKind.read (.Numbers [1, 2]) [] = .ok .Undefined
    ∧ ([5] ≠ ([] : List Nat))
    ∧ IterableKind.validAccess (.Numbers [1, 2]) [5] = false
    ∧ ∃ msg, IterableKind.read (.Numbers [1, 2]) [5]
        = .error (.OutOfBounds msg) :=
  ⟨(claim_C8_read (.Numbers [1, 2]) []).1 rfl, by decide, rfl,
    (claim_C8_read (.Numbers [1, 2]) [5]).2 (by decide) rfl⟩

theorem mapM_render_ok (ctx : TransformerContext) :
    ∀ (names : List String),
      (∀ n ∈ names, ∃ v, ctx.get_value n = some v ∧ (renderIndexValue v).isSome) →
      names.mapM ctx.render_index
        = .ok (names.map (fun n => ((ctx.get_value n).bind renderIndexValue).getD ""))
  | [], _ => rfl
  | n :: rest, h => by
      obtain ⟨v, hv, hs⟩ := h n (by simp)
      have hr : ctx.render_index n
          = .ok (((ctx.get_value n).bind renderIndexValue).getD "") := by
        cases v with
        | Number m => simp [TransformerContext.render_index, hv, renderIndexValue]
        | String s => simp [TransformerContext.render_index, hv, renderIndexValue]
        | GraphNode nd =>
            simp [TransformerContext.render_index, hv, renderIndexValue,
                  GraphNode.get_name]
        | Iterable i => simp [renderIndexValue] at hs
        | Graph g => simp [renderIndexValue] at hs
        | GraphEdge e => simp [renderIndexValue] at hs
        | Tuple t => simp [renderIndexValue] at hs
        | Boolean b => simp [renderIndexValue] at hs
        | Undefined => simp [renderIndexValue] at hs
      rw [List.mapM_cons, hr,
          mapM_render_ok ctx rest (fun m hm => h m (by simp [hm]))]
      rfl

theorem mapM_render_err (ctx : TransformerContext) :
    ∀ (pre : List String) (n : String) (post : List String) (e : TransformError),
      (∀ m ∈ pre, ∃ v, ctx.get_value m = some v ∧ (renderIndexValue v).isSome) →
      ctx.render_index n = .error e →
      (pre ++ n :: post).mapM ctx.render_index = .error e
  | [], n, post, e, _, herr => by
      rw [List.nil_append, List.mapM_cons, herr]
      rfl
  | p :: pre, n, post, e, hpre, herr => by
      obtain ⟨v, hv, hs⟩ := hpre p (by simp)
      have hr : ∃ s, ctx.render_index p = .ok s := by
        cases v with
        | Number m =>
            exact ⟨toString m, by simp [TransformerContext.render_index, hv]⟩
        | String s =>
            exact ⟨s, by simp [TransformerContext.render_index, hv]⟩
        | GraphNode nd =>
            exact ⟨nd.get_name, by simp [TransformerContext.render_index, hv]⟩
        | Iterable i => simp [renderIndexValue] at hs
        | Graph g => simp [renderIndexValue] at hs
        | GraphEdge e2 => simp [renderIndexValue] at hs
        | Tuple t => simp [renderIndexValue] at hs
        | Boolean b => simp [renderIndexValue] at hs
        | Undefined => simp [renderIndexValue] at hs
      obtain ⟨s, hrp⟩ := hr
      rw [List.cons_append, List.mapM_cons, hrp,
          mapM_render_err ctx pre n post e (fun m hm => hpre m (by simp [hm])) herr]
      rfl

/-- C2: `flatten_compound_variable(stem, [i1, …, ik])` returns
`stem_v1_…_vk` when every index name resolves to a renderable value —
`Number` in decimal form, `String` as itself, `GraphNode` as its name; when
the first failing index is unbound the result is `MissingVariable` for that
name, and when it resolves to a value of any other kind the result is
`WrongArgument`. -/
theorem claim_C2_flatten_compound_variable (ctx : TransformerContext)
    (stem : String) (indexes : List String) :
    ((∀ n ∈ indexes, ∃ v, ctx.get_value n = some v ∧ (renderIndexValue v).isSome) →
      ctx.flatten_compound_variable stem indexes
        = .ok (stem ++ "_"
            ++ "_".intercalate
              (indexes.map (fun n => ((ctx.get_value n).bind renderIndexValue).getD ""))))
    ∧ (∀ pre n post, indexes = pre ++ n :: post →
      (∀ m ∈ pre, ∃ v, ctx.get_value m = some v ∧ (renderIndexValue v).isSome) →
      ctx.get_value n = none →
      ctx.flatten_compound_variable stem indexes
        = .error (.MissingVariable n))
    ∧ (∀ pre n post v, indexes = pre ++ n :: post →
      (∀ m ∈ pre, ∃ w, ctx.get_value m = some w ∧ (renderIndexValue w).isSome) →
      ctx.get_value n = some v → renderIndexValue v = none →
      ∃ msg, ctx.flatten_compound_variable stem indexes
        = .error (.WrongArgument msg)) := by
  refine ⟨?_, ?_, ?_⟩
  · intro h
    rw [TransformerContext.flatten_compound_variable,
        TransformerContext.flatten_variable_name, mapM_render_ok ctx indexes h]
    rfl
  · intro pre n post hsplit hpre hnone
    have herr : ctx.render_index n = .error (.MissingVariable n) := by
      simp [TransformerContext.render_index, hnone]
    rw [TransformerContext.flatten_compound_variable,
        TransformerContext.flatten_variable_name, hsplit,
        mapM_render_err ctx pre n post _ hpre herr]
    rfl
  · intro pre n post v hsplit hpre hv hnr
    have herr : ctx.render_index n
        = .error (.WrongArgument
            ("Expected a number or string for variable flattening, got "
              ++ v.get_type_string ++ ", check the definition of " ++ n)) := by
      cases v with
      | Number m => simp [renderIndexValue] at hnr
      | String s => simp [renderIndexValue] at hnr
      | GraphNode nd => simp [renderIndexValue] at hnr
      | Iterable i => simp [TransformerContext.render_index, hv]
      | Graph g => simp [TransformerContext.render_index, hv]
      | GraphEdge e => simp [TransformerContext.render_index, hv]
      | Tuple t => simp [TransformerContext.render_index, hv]
      | Boolean b => simp [TransformerContext.render_index, hv]
      | Undefined => simp [TransformerContext.render_index, hv]
    have hres : ctx.flatten_compound_variable stem indexes
        = .error (.WrongArgument
            ("Expected a number or string for variable flattening, got "
              ++ v.get_type_string ++ ", check the definition of " ++ n)) := by
      rw [TransformerContext.flatten_compound_variable,
          TransformerContext.flatten_variable_name, hsplit,
          mapM_render_err ctx pre n post _ hpre herr]
      rfl
    exact ⟨_, hres⟩

/-- C2 witness: with `i ↦ 1` and `j ↦ "a"` in scope, `X_{i,j}` flattens to
`"X_1_a"`; an unbound `k` is `MissingVariable`, and a graph-valued `g` is
`WrongArgument`. -/
theorem claim_C2_witness :
    TransformerContext.flatten_compound_variable
        ⟨[⟨[("i", Primitive.Number 1), ("j", Primitive.String "a"),
            ("g", Primitive.Graph ⟨[]⟩)]⟩]⟩ "X" ["i", "j"]
      = .ok "X_1_a"
    ∧ TransformerContext.flatten_compound_variable
        ⟨[⟨[("i", Primitive.Number 1), ("j", Primitive.String "a"),
            ("g", Primitive.Graph ⟨[]⟩)]⟩]⟩ "X" ["i", "k"]
      = .error (.MissingVariable "k")
    ∧ ∃ msg, TransformerContext.flatten_compound_variable
        ⟨[⟨[("i", Primitive.Number 1), ("j", Primitive.String "a"),
            ("g", Primitive.Graph ⟨[]⟩)]⟩]⟩ "X" ["i", "g"]
      = .error (.WrongArgument msg) := by
  refine ⟨?_, ?_, ?_⟩
  · have h := (claim_C2_flatten_compound_variable
        ⟨[⟨[("i", Primitive.Number 1), ("j", Primitive.String "a"),
            ("g", Primitive.Graph ⟨[]⟩)]⟩]⟩ "X" ["i", "j"]).1
        (by
          intro n hn
          fin_cases hn
          · exact ⟨Primitive.Number 1, rfl, rfl⟩
          · exact ⟨Primitive.String "a", rfl, rfl⟩)
    simpa using h
  · exact (claim_C2_flatten_compound_variable _ "X" ["i", "k"]).2.1
      ["i"] "k" []
      rfl
      (by
        intro m hm
        fin_cases hm
        exact ⟨Primitive.Number 1, rfl, rfl⟩)
      rfl
  · exact (claim_C2_flatten_compound_variable _ "X" ["i", "g"]).2.2
      ["i"] "g" [] (Primitive.Graph ⟨[]⟩)
      rfl
      (by
        intro m hm
        fin_cases hm
        exact ⟨Primitive.Number 1, rfl, rfl⟩)
      rfl
      rfl

theorem clarabel_value_fold (coeffs : List Rat) :
    ∀ (xs : List Assignment) (k : Nat) (init : Rat),
      k + xs.length ≤ coeffs.length →
      (xs.enumFrom k).foldl (fun acc p => acc + p.2.value * coeffs.getD p.1 0) init
        = init
          + (((xs.map Assignment.value).zip (coeffs.drop k)).map
              (fun p => p.1 * p.2)).sum
  | [], k, init, _ => by simp [List.enumFrom]
  | x :: xs, k, init, h => by
      have hk : k < coeffs.length := by
        simp only [List.length_cons] at h
        omega
      rw [show (x :: xs).enumFrom k = (k, x) :: xs.enumFrom (k + 1) from rfl,
          List.foldl_cons,
          clarabel_value_fold coeffs xs (k + 1) _
            (by simp only [List.length_cons] at h; omega),
          List.drop_eq_getElem_cons hk,
          List.getD_eq_getElem coeffs 0 hk]
      simp only [List.map_cons, List.zip_cons_cons, List.sum_cons]
      ring

/-- C9: whenever the clarabel backend path succeeds, the reported solution
value is the sum of assignment-times-objective-coefficient plus TWICE the
objective offset: the fold over the assignments starts from the offset, and
the offset is added once more when the `LpSolution` is constructed. -/
theorem claim_C9_clarabel_value (lp : LinearModel) (sol : String → Rat)
    (s : LpSolution)
    (hlen : lp.objective.length = lp.vars.length)
    (hok : solve_real_lp_problem_clarabel lp (.ok sol) = .ok s) :
    s.value
      = (((lp.vars.map sol).zip lp.objective).map (fun p => p.1 * p.2)).sum
        + 2 * lp.objective_offset := by
  unfold solve_real_lp_problem_clarabel at hok
  by_cases hinv : (find_invalid_variables lp.domain
      (fun var =>
        match var with
        | .Real => true
        | .NonNegativeReal => true
        | _ => false)).isEmpty
  · rw [if_neg (by simp [hinv])] at hok
    cases hopt : lp.optimization_type with
    | Satisfy => rw [hopt] at hok; cases hok
    | Min =>
        rw [hopt] at hok
        simp only [] at hok
        cases hok
        simp only []
        rw [show (lp.vars.map (fun name => Assignment.mk name (sol name))).enum
              = (lp.vars.map (fun name => Assignment.mk name (sol name))).enumFrom 0
              from rfl,
            clarabel_value_fold lp.objective _ 0 lp.objective_offset
              (by simp [hlen])]
        simp only [List.drop_zero, List.map_map]
        have hcomp : (Assignment.value ∘ fun name => Assignment.mk name (sol name))
            = sol := rfl
        rw [hcomp]
        ring
    | Max =>
        rw [hopt] at hok
        simp only [] at hok
        cases hok
        simp only []
        rw [show (lp.vars.map (fun name => Assignment.mk name (sol name))).enum
              = (lp.vars.map (fun name => Assignment.mk name (sol name))).enumFrom 0
              from rfl,
            clarabel_value_fold lp.objective _ 0 lp.objective_offset
              (by simp [hlen])]
        simp only [List.drop_zero, List.map_map]
        have hcomp : (Assignment.value ∘ fun name => Assignment.mk name (sol name))
            = sol := rfl
        rw [hcomp]
        ring
  · rw [if_pos (by simp [hinv])] at hok
    cases hok

/-- C9 witness: the one-variable model `min 3x + 5` with external solution
`x = 2` reports value `16 = (2·3) + 2·5`, the offset entering twice. -/
theorem claim_C9_witness :
    solve_real_lp_problem_clarabel
        ⟨["x"], 5, .Min, [3], [], [("x", VariableType.Real)]⟩
        (.ok (fun _ => 2))
      = .ok ⟨[⟨"x", 2⟩], 16⟩
    ∧ (⟨[⟨"x", 2⟩], 16⟩ : LpSolution).value
      = ((((⟨["x"], 5, .Min, [3], [], [("x", VariableType.Real)]⟩ :
            LinearModel).vars.map (fun _ => (2 : Rat))).zip
          [(3 : Rat)]).map (fun p => p.1 * p.2)).sum
        + 2 * 5 := by
  have hok : solve_real_lp_problem_clarabel
      ⟨["x"], 5, .Min, [3], [], [("x", VariableType.Real)]⟩
      (.ok (fun _ => 2))
      = .ok ⟨[⟨"x", 2⟩], 16⟩ := by
    simp [solve_real_lp_problem_clarabel, find_invalid_variables]
    norm_num
  refine ⟨hok, ?_⟩
  exact claim_C9_clarabel_value
    ⟨["x"], 5, .Min, [3], [], [("x", VariableType.Real)]⟩
    (fun _ => 2) ⟨[⟨"x", 2⟩], 16⟩ rfl hok
